import Mathlib

/-!
# fluentorr-backend: the signed evaluation envelope, the remote submission and the transcoder

A shallow embedding of `src/index.js`:

* `doEval`: the signature helpers `encrypt`, `getConnectSig`, `getStartSig`, the token
  generator `createUUID`, the `tokenId` assignment and the `params` envelope;
* the callback that `doEval` hands to `fd.submit`, with the listeners it puts on the
  response, as a transition system over a promise that settles once;
* `convertToWav`, as a transition system over the events of the output stream and of the
  transcoding command;
* the `try`/`catch` of the `POST /api/analyze` handler.

What the program takes from its platform and does not define (the SHA-1 digest, the
decoding of a buffer to text, `JSON.parse`) is a field of `Platform`.  The clock and
`Math.random` are explicit inputs.
-/

namespace Fluentorr

/-! ## JavaScript values and objects -/

/-- A JavaScript value as far as the program looks at one: `num` is a finite number, `nan`
is `NaN`, and `ref` stands for any object, array or function (told apart by identity). -/
inductive JsVal where
  | undefined
  | null
  | bool (b : Bool)
  | num (q : ℚ)
  | nan
  | str (s : String)
  | ref (id : Nat)
  deriving DecidableEq

/-- ToBoolean: the values that `||` lets through. -/
def JsVal.truthy : JsVal → Bool
  | .undefined => false
  | .null => false
  | .bool b => b
  | .num q => decide (q ≠ 0)
  | .nan => false
  | .str s => decide (s ≠ "")
  | .ref _ => true

/-- A plain object: its own properties in insertion order. -/
abbrev JsObj := List (String × JsVal)

/-- The names of the own properties, in order. -/
def JsObj.keys (o : JsObj) : List String := o.map Prod.fst

/-- Own-property lookup; `none` when the object has no such property. -/
def JsObj.find? : JsObj → String → Option JsVal
  | [], _ => none
  | (k', v) :: rest, k => if k' = k then some v else JsObj.find? rest k

/-- Property read `o[k]`: a missing property reads as `undefined`. -/
def JsObj.get (o : JsObj) (k : String) : JsVal :=
  match o.find? k with
  | some v => v
  | none => .undefined

/-- Property write `o[k] = v`: an existing property keeps its place, a new one goes last. -/
def JsObj.set : JsObj → String → JsVal → JsObj
  | [], k, v => [(k, v)]
  | (k', v') :: rest, k, v =>
      if k' = k then (k, v) :: rest else (k', v') :: JsObj.set rest k v

/-! ## Numbers and strings -/

/-- Decimal rendering of a natural number. -/
def natToString (n : Nat) : String := String.mk (Nat.toDigits 10 n)

/-- The builtin `Number.prototype.toString()` on an integer-valued number (below `10^21` in
size, as every time value and status code is): an optional minus sign, then the decimal
digits. -/
def numberToString (i : Int) : String :=
  if i < 0 then "-" ++ natToString i.natAbs else natToString i.toNat

/-- The builtin `Number.prototype.toString(16)` on an integer: lower-case hexadecimal
digits. -/
def numberToString16 (i : Int) : String :=
  if i < 0 then "-" ++ String.mk (Nat.toDigits 16 i.natAbs)
  else String.mk (Nat.toDigits 16 i.toNat)

/-- ToInt32, the conversion behind `x | 0`: truncate toward zero, then wrap into
`[-2^31, 2^31)`. -/
def toInt32 (q : ℚ) : Int :=
  let t : Int := if 0 ≤ q then ⌊q⌋ else -⌊-q⌋
  (t + 2147483648) % 4294967296 - 2147483648

/-- The builtin `String.prototype.toUpperCase`, on the ASCII strings the program applies it
to. -/
def toUpperCase (s : String) : String := String.mk (s.data.map Char.toUpper)

/-! ## The platform -/

/-- A byte buffer. -/
abbrev Buffer := List UInt8

/-- What `index.js` imports and calls but does not define. -/
structure Platform where
  /-- The call `createHash("sha1").update(content).digest('hex')`. -/
  sha1Hex : String → String
  /-- The builtin `Buffer.prototype.toString()`. -/
  bufferToString : Buffer → String
  /-- The builtin `JSON.parse`: the parsed value, or the message of the error it throws. -/
  jsonParse : String → Except String JsVal

/-- The two values read from the environment at startup. -/
structure Credentials where
  appKey : String
  secretKey : String

/-! ## `doEval`: signatures, token and envelope -/

/-- What `getConnectSig` returns. -/
structure ConnectSig where
  sig : String
  timestamp : String
  deriving DecidableEq

/-- What `getStartSig` returns. -/
structure StartSig where
  sig : String
  timestamp : String
  userId : String
  deriving DecidableEq

/-- Source `encrypt`: the SHA-1 hex digest of `content`. -/
def encrypt (P : Platform) (content : String) : String := P.sha1Hex content

/-- Source `getConnectSig`, with `now` the value of `new Date().getTime()`. -/
def getConnectSig (P : Platform) (K : Credentials) (now : Int) : ConnectSig :=
  let timestamp := numberToString now
  let sig := encrypt P (K.appKey ++ timestamp ++ K.secretKey)
  { sig := sig, timestamp := timestamp }

/-- Source `getStartSig`, with `now` the value of `new Date().getTime()`. -/
def getStartSig (P : Platform) (K : Credentials) (userId : String) (now : Int) : StartSig :=
  let timestamp := numberToString now
  let sig := encrypt P (K.appKey ++ timestamp ++ userId ++ K.secretKey)
  { sig := sig, timestamp := timestamp, userId := userId }

/-- The replacer `uuidReplacer`, given the matched character and the result of its one call
to `Math.random`. -/
def uuidReplacer (c : Char) (random : ℚ) : String :=
  let r := toInt32 (random * 16)
  let v := if c = 'x' then r else Int.lor (Int.land r 3) 8
  numberToString16 v

/-- The call `template.replace(/[xy]/g, uuidReplacer)`: left to right, every `x` and `y` is
replaced by what the replacer returns for it; the `i`-th call of `Math.random` returns `rand i`, and
`i` is the number of calls made so far.  Returns the text and the new number of calls. -/
def replaceXY (rand : Nat → ℚ) : List Char → Nat → List Char × Nat
  | [], i => ([], i)
  | c :: cs, i =>
      if c = 'x' ∨ c = 'y' then
        let out := replaceXY rand cs (i + 1)
        ((uuidReplacer c (rand i)).data ++ out.1, out.2)
      else
        let out := replaceXY rand cs i
        (c :: out.1, out.2)

/-- The template of `createUUID`. -/
def uuidTemplate : String := "xxxxxxxxxxxx4xxxyxxxxxxxxxxxxxxx"

/-- Source `createUUID`, started after `i` calls of `Math.random`: the token and the number
of calls after it. -/
def createUUID (rand : Nat → ℚ) (i : Nat) : String × Nat :=
  let out := replaceXY rand uuidTemplate.data i
  (toUpperCase (String.mk out.1), out.2)

/-- The assignment `requestParams['tokenId'] = requestParams['tokenId'] || createUUID()`:
the object after the assignment, and the number of calls of `Math.random` made
(`createUUID` runs only when the left operand is falsy). -/
def assignTokenId (rand : Nat → ℚ) (requestParams : JsObj) : JsObj × Nat :=
  let current := requestParams.get "tokenId"
  if current.truthy then
    (requestParams.set "tokenId" current, 0)
  else
    let token := createUUID rand 0
    (requestParams.set "tokenId" (.str token.1), token.2)

/-- The object `connect.param.sdk`. -/
structure SdkInfo where
  version : Nat
  source : Nat
  protocol : Nat
  deriving DecidableEq

/-- The object `connect.param.app`. -/
structure ConnectApp where
  applicationId : String
  sig : String
  timestamp : String
  deriving DecidableEq

/-- The object `connect.param`. -/
structure ConnectParam where
  sdk : SdkInfo
  app : ConnectApp
  deriving DecidableEq

/-- The object `connect`. -/
structure ConnectCmd where
  cmd : String
  param : ConnectParam
  deriving DecidableEq

/-- The object `start.param.app`. -/
structure StartApp where
  applicationId : String
  sig : String
  userId : String
  timestamp : String
  deriving DecidableEq

/-- The object `start.param.audio`. -/
structure AudioInfo where
  audioType : String
  sampleRate : String
  channel : Nat
  sampleBytes : Nat
  deriving DecidableEq

/-- The object `start.param`. -/
structure StartParam where
  app : StartApp
  audio : AudioInfo
  request : JsObj
  deriving DecidableEq

/-- The object `start`. -/
structure StartCmd where
  cmd : String
  param : StartParam
  deriving DecidableEq

/-- The object `params` that `doEval` serialises into the `text` part. -/
structure Params where
  connect : ConnectCmd
  start : StartCmd
  deriving DecidableEq

/-- What `doEval` reads from outside while it builds `params`: the clock at the call in
`getConnectSig`, the clock at the call in `getStartSig`, and the results of `Math.random`. -/
structure Ambient where
  nowConnect : Int
  nowStart : Int
  rand : Nat → ℚ

/-- The body of `doEval` up to and including `let params = ...`: the envelope, and the
number of calls of `Math.random` it made. -/
def doEvalParams (P : Platform) (K : Credentials) (A : Ambient)
    (userId audioType sampleRate : String) (requestParams : JsObj) : Params × Nat :=
  let connectSig := getConnectSig P K A.nowConnect
  let startSig := getStartSig P K userId A.nowStart
  let assigned := assignTokenId A.rand requestParams
  ({ connect :=
      { cmd := "connect"
        param :=
          { sdk := { version := 16777472, source := 9, protocol := 2 }
            app :=
              { applicationId := K.appKey
                sig := connectSig.sig
                timestamp := connectSig.timestamp } } }
     start :=
      { cmd := "start"
        param :=
          { app :=
              { applicationId := K.appKey
                sig := startSig.sig
                userId := startSig.userId
                timestamp := startSig.timestamp }
            audio :=
              { audioType := audioType
                sampleRate := sampleRate
                channel := 1
                sampleBytes := 2 }
            request := assigned.1 } } },
   assigned.2)

/-! ## Promises -/

/-- The state of a promise; the reason of a rejection is the `message` of the error. -/
inductive Promise (α : Type) where
  | pending
  | fulfilled (value : α)
  | rejected (message : String)
  deriving DecidableEq

/-- Calling `resolve(value)`: it settles a pending promise and does nothing to a settled
one. -/
def Promise.resolve {α : Type} (p : Promise α) (value : α) : Promise α :=
  match p with
  | .pending => .fulfilled value
  | settled => settled

/-- Calling `reject(error)`: it settles a pending promise and does nothing to a settled
one. -/
def Promise.reject {α : Type} (p : Promise α) (message : String) : Promise α :=
  match p with
  | .pending => .rejected message
  | settled => settled

/-! ## `convertToWav` -/

/-- What reaches the listeners that `convertToWav` registers: `data`, `end` and `error` of
`outputStream`, and `error` of the ffmpeg command. -/
inductive WavEvent where
  | data (chunk : Buffer)
  | streamEnd
  | streamError (message : String)
  | commandError (message : String)
  deriving DecidableEq

/-- The promise of `convertToWav` and its array `chunks`. -/
structure WavState where
  promise : Promise Buffer
  chunks : List Buffer
  deriving DecidableEq

/-- The state when `convertToWav` has registered its listeners. -/
def WavState.init : WavState := { promise := .pending, chunks := [] }

/-- One event, handled by the listener registered for it. -/
def wavStep (st : WavState) : WavEvent → WavState
  | .data chunk => { st with chunks := st.chunks ++ [chunk] }
  | .streamEnd => { st with promise := st.promise.resolve st.chunks.flatten }
  | .streamError message => { st with promise := st.promise.reject message }
  | .commandError message => { st with promise := st.promise.reject message }

/-- The state after a sequence of events. -/
def wavRun (events : List WavEvent) : WavState := events.foldl wavStep WavState.init

/-- Source `convertToWav(inputBuffer)`: the promise it returns, as left by the events that
the transcoding of `inputBuffer` delivers. -/
def convertToWav (engine : Buffer → List WavEvent) (inputBuffer : Buffer) : Promise Buffer :=
  (wavRun (engine inputBuffer)).promise

/-! ## `doEval`: the submission -/

/-- An event of the response `res`. -/
inductive ResEvent where
  | data (chunk : Buffer)
  | streamEnd
  | error (message : String)
  deriving DecidableEq

/-- What `fd.submit` does with the request: it throws, or it never calls back, or it calls
back with an error, or it calls back with a response of some status code on which events
then arrive. -/
inductive SubmitOutcome where
  | threw (message : String)
  | silent
  | failed (message : String)
  | responded (statusCode : Nat) (events : List ResEvent)
  deriving DecidableEq

/-- The promise of `doEval`, the array `body`, whether the callback has put its listeners on
the response, and the error thrown by an `error` event that no listener takes (left
unhandled it ends the process). -/
structure EvalState where
  promise : Promise String
  body : List Buffer
  listening : Bool
  uncaught : Option String
  deriving DecidableEq

/-- The state before `fd.submit` is called. -/
def EvalState.init : EvalState :=
  { promise := .pending, body := [], listening := false, uncaught := none }

/-- The callback passed to `fd.submit`, called with `(err, res)`: `err` is the message of the
error or `none` for `null`, `statusCode` is `res.statusCode`. -/
def submitCallback (st : EvalState) (err : Option String) (statusCode : Nat) : EvalState :=
  match err with
  | some message => { st with promise := st.promise.reject message }
  | none =>
      if statusCode < 200 ∨ statusCode > 299 then
        { st with
          promise := st.promise.reject ("HTTP status code " ++ numberToString statusCode) }
      else
        { st with body := [], listening := true }

/-- One event of the response.  `data` and `end` have a listener once the callback has
registered them; `error` never has one, so emitting it throws. -/
def resStep (P : Platform) (st : EvalState) (ev : ResEvent) : EvalState :=
  if st.uncaught.isSome then st
  else
    match ev with
    | .data chunk => if st.listening then { st with body := st.body ++ [chunk] } else st
    | .streamEnd =>
        if st.listening then
          { st with promise := st.promise.resolve (P.bufferToString st.body.flatten) }
        else st
    | .error message => { st with uncaught := some message }

/-- The part of `doEval` from `new Promise` on, given what `fd.submit` does. -/
def submitRun (P : Platform) : SubmitOutcome → EvalState
  | .threw message => { EvalState.init with promise := EvalState.init.promise.reject message }
  | .silent => EvalState.init
  | .failed message => submitCallback EvalState.init (some message) 0
  | .responded statusCode events =>
      events.foldl (resStep P) (submitCallback EvalState.init none statusCode)

/-- The request that `doEval` submits: the `options`, and the two parts of the form. -/
structure Request where
  host : String
  /-- The path is `"/" + coreType`. -/
  coreType : JsVal
  method : String
  protocol : String
  headers : List (String × String)
  text : Params
  audio : Buffer
  filename : String

/-- The host of the remote service, `baseHOST`. -/
def baseHOST : String := "api.speechsuper.com"

/-- Source `doEval`: the request it submits and the state its promise ends in, `remote`
telling what `fd.submit` does with a request. -/
def doEval (P : Platform) (K : Credentials) (A : Ambient) (remote : Request → SubmitOutcome)
    (userId audioType sampleRate : String) (requestParams : JsObj) (audioBuffer : Buffer) :
    Request × EvalState :=
  let coreType := requestParams.get "coreType"
  let params := (doEvalParams P K A userId audioType sampleRate requestParams).1
  let request : Request :=
    { host := baseHOST
      coreType := coreType
      method := "POST"
      protocol := "https:"
      headers := [("Request-Index", "0")]
      text := params
      audio := audioBuffer
      filename := "audio.wav" }
  (request, submitRun P (remote request))

/-! ## The endpoints -/

/-- A response of the server: the status and the JSON body, either a parsed value passed
on or an object built by the handler. -/
structure HttpResponse where
  status : Nat
  body : JsVal ⊕ JsObj
  deriving DecidableEq

/-- The subject id that both endpoints pass, `userId`. -/
def userId : String := "uid"

/-- The `try`/`catch` of both handlers; `none` when an awaited promise stays pending, so
that no response is sent. -/
def evaluateAndRespond (P : Platform) (K : Credentials) (A : Ambient)
    (engine : Buffer → List WavEvent) (remote : Request → SubmitOutcome)
    (audioBuffer : Buffer) (requestParams : JsObj) : Option HttpResponse :=
  match convertToWav engine audioBuffer with
  | .pending => none
  | .rejected message => some { status := 500, body := .inr [("error", .str message)] }
  | .fulfilled outputBuffer =>
      match (doEval P K A remote userId "wav" "16000" requestParams outputBuffer).2.promise with
      | .pending => none
      | .rejected message => some { status := 500, body := .inr [("error", .str message)] }
      | .fulfilled analysisResult =>
          match P.jsonParse analysisResult with
          | .ok value => some { status := 200, body := .inl value }
          | .error message => some { status := 500, body := .inr [("error", .str message)] }

/-- The handler of `POST /api/analyze`; `refText` is `req.body.refText`. -/
def analyze (P : Platform) (K : Credentials) (A : Ambient)
    (engine : Buffer → List WavEvent) (remote : Request → SubmitOutcome)
    (audioBuffer : Buffer) (refText : JsVal) : Option HttpResponse :=
  evaluateAndRespond P K A engine remote audioBuffer
    [("scale", .num 100), ("accent_dialect", .str "indian"),
     ("coreType", .str "sent.eval.promax"), ("refText", refText)]

/-- The handler of `POST /api/analyze-description`. -/
def analyzeDescription (P : Platform) (K : Credentials) (A : Ambient)
    (engine : Buffer → List WavEvent) (remote : Request → SubmitOutcome)
    (audioBuffer : Buffer) : Option HttpResponse :=
  evaluateAndRespond P K A engine remote audioBuffer
    [("coreType", .str "speak.eval.pro"), ("test_type", .str "ielts"),
     ("task_type", .str "ielts_part1"), ("question_prompt", .str "Describe the picture."),
     ("model", .str "non_native"), ("penalize_offtopic", .num 1)]

/-! ## Auxiliary notions for the statements -/

/-- The characters an `x` can turn into, after `toUpperCase`. -/
def hexUpper : List Char :=
  ['0', '1', '2', '3', '4', '5', '6', '7', '8', '9', 'A', 'B', 'C', 'D', 'E', 'F']

/-- The characters the `y` can turn into, after `toUpperCase`. -/
def variantUpper : List Char := ['8', '9', 'A', 'B']

/-- How a character of the token relates to the character of the template at its place. -/
def tokenChar (c d : Char) : Prop :=
  (c = 'x' → d ∈ hexUpper) ∧ (c = 'y' → d ∈ variantUpper) ∧
  (c ≠ 'x' → c ≠ 'y' → d = c.toUpper)

/-- The number that a list of decimal digits spells, continuing from `start`. -/
def digitsValue (start : Nat) (ds : List Char) : Nat :=
  ds.foldl (fun acc c => acc * 10 + (c.toNat - 48)) start

/-! ## Lemmas on promises and on the two event loops -/

theorem Promise.resolve_fulfilled {α : Type} (v w : α) :
    (Promise.fulfilled v).resolve w = .fulfilled v := rfl

theorem Promise.reject_fulfilled {α : Type} (v : α) (m : String) :
    (Promise.fulfilled v).reject m = .fulfilled v := rfl

theorem Promise.resolve_rejected {α : Type} (m : String) (w : α) :
    (Promise.rejected m : Promise α).resolve w = .rejected m := rfl

theorem Promise.reject_rejected {α : Type} (m m' : String) :
    (Promise.rejected m : Promise α).reject m' = .rejected m := rfl

/-- Once fulfilled, the promise of `convertToWav` keeps its value whatever arrives. -/
theorem wavStep_foldl_fulfilled (events : List WavEvent) (value : Buffer) :
    ∀ chunks : List Buffer,
      (events.foldl wavStep { promise := .fulfilled value, chunks := chunks }).promise
        = .fulfilled value := by
  induction events with
  | nil => intro chunks; rfl
  | cons ev rest ih =>
      intro chunks
      cases ev <;> simp [List.foldl, wavStep, Promise.resolve, Promise.reject, ih]

/-- Once rejected, the promise of `convertToWav` keeps its reason whatever arrives. -/
theorem wavStep_foldl_rejected (events : List WavEvent) (message : String) :
    ∀ chunks : List Buffer,
      (events.foldl wavStep { promise := .rejected message, chunks := chunks }).promise
        = .rejected message := by
  induction events with
  | nil => intro chunks; rfl
  | cons ev rest ih =>
      intro chunks
      cases ev <;> simp [List.foldl, wavStep, Promise.resolve, Promise.reject, ih]

/-- A run of `data` events only appends the chunks. -/
theorem wavStep_foldl_data (chunks : List Buffer) :
    ∀ st : WavState,
      (chunks.map WavEvent.data).foldl wavStep st
        = { st with chunks := st.chunks ++ chunks } := by
  induction chunks with
  | nil => intro st; simp
  | cons c rest ih =>
      intro st
      simp [List.foldl, wavStep, ih, List.append_assoc]

/-- Once rejected, the promise of `doEval` keeps its reason whatever the response emits. -/
theorem resStep_foldl_rejected (P : Platform) (events : List ResEvent) (message : String) :
    ∀ st : EvalState, st.promise = .rejected message →
      (events.foldl (resStep P) st).promise = .rejected message := by
  induction events with
  | nil => intro st h; exact h
  | cons ev rest ih =>
      intro st h
      refine ih _ ?_
      unfold resStep
      cases ev <;> split_ifs <;> simp [h, Promise.resolve]

/-- While the promise of `doEval` is pending and nothing was thrown, `data` events only
append to `body`. -/
theorem resStep_foldl_data (P : Platform) (chunks : List Buffer) :
    ∀ st : EvalState, st.listening = true → st.uncaught = none →
      (chunks.map ResEvent.data).foldl (resStep P) st
        = { st with body := st.body ++ chunks } := by
  induction chunks with
  | nil => intro st _ _; simp
  | cons c rest ih =>
      intro st hl hu
      simp only [List.map_cons, List.foldl_cons]
      have hstep : resStep P st (.data c) = { st with body := st.body ++ [c] } := by
        simp [resStep, hl, hu]
      rw [hstep, ih { st with body := st.body ++ [c] } hl hu]
      simp [List.append_assoc]

/-- After an `error` event was thrown, no later event changes the state. -/
theorem resStep_foldl_uncaught (P : Platform) (events : List ResEvent) :
    ∀ st : EvalState, st.uncaught.isSome = true →
      events.foldl (resStep P) st = st := by
  induction events with
  | nil => intro st _; rfl
  | cons ev rest ih =>
      intro st h
      have hstep : resStep P st ev = st := by simp [resStep, h]
      simp only [List.foldl_cons, hstep]
      exact ih st h

/-- The callback on a status in `200..299`: listeners registered, promise still pending. -/
theorem submitCallback_success (s : Nat) (h : 200 ≤ s ∧ s ≤ 299) :
    submitCallback EvalState.init none s
      = { promise := .pending, body := [], listening := true, uncaught := none } := by
  have h' : ¬ (s < 200 ∨ s > 299) := by omega
  simp [submitCallback, h', EvalState.init]

/-- The callback on a status outside `200..299`: the promise is rejected with the status in
the message. -/
theorem submitCallback_failure (s : Nat) (h : s < 200 ∨ 299 < s) :
    submitCallback EvalState.init none s
      = { promise := .rejected ("HTTP status code " ++ numberToString s), body := [],
          listening := false, uncaught := none } := by
  have h' : s < 200 ∨ s > 299 := h
  simp [submitCallback, h', EvalState.init, Promise.reject]

/-- Every sequence of transcoder events is a run of `data` events, either alone or followed
by a first `end` or a first error and whatever comes after it. -/
theorem wavEvents_split (events : List WavEvent) :
    ∃ chunks : List Buffer,
      events = chunks.map WavEvent.data ∨
      ∃ rest : List WavEvent,
        events = chunks.map WavEvent.data ++ WavEvent.streamEnd :: rest ∨
        ∃ message : String,
          events = chunks.map WavEvent.data ++ WavEvent.streamError message :: rest ∨
          events = chunks.map WavEvent.data ++ WavEvent.commandError message :: rest := by
  induction events with
  | nil => exact ⟨[], Or.inl rfl⟩
  | cons ev rest ih =>
      cases ev with
      | data c =>
          obtain ⟨chunks, h | ⟨rest', h | ⟨m, h | h⟩⟩⟩ := ih
          · exact ⟨c :: chunks, Or.inl (by simp [h])⟩
          · exact ⟨c :: chunks, Or.inr ⟨rest', Or.inl (by simp [h])⟩⟩
          · exact ⟨c :: chunks, Or.inr ⟨rest', Or.inr ⟨m, Or.inl (by simp [h])⟩⟩⟩
          · exact ⟨c :: chunks, Or.inr ⟨rest', Or.inr ⟨m, Or.inr (by simp [h])⟩⟩⟩
      | streamEnd => exact ⟨[], Or.inr ⟨rest, Or.inl rfl⟩⟩
      | streamError m => exact ⟨[], Or.inr ⟨rest, Or.inr ⟨m, Or.inl rfl⟩⟩⟩
      | commandError m => exact ⟨[], Or.inr ⟨rest, Or.inr ⟨m, Or.inr rfl⟩⟩⟩

/-! ## The claims on the remote status, the response stream and the transcoder -/

/-- C2, as stated, fails at status 299: it lies outside `200 <= s < 299`, and `doEval` puts
its listeners on the response, does not reject, and resolves with the body once the
response ends. -/
theorem status_299_is_success :
    ¬ (200 ≤ 299 ∧ 299 < 299) ∧
    (submitCallback EvalState.init none 299).listening = true ∧
    (submitCallback EvalState.init none 299).promise = Promise.pending ∧
    ∀ P : Platform,
      (submitRun P (.responded 299 [.data [111, 107], .streamEnd])).promise
        = .fulfilled (P.bufferToString [111, 107]) := by
  refine ⟨by decide, ?_, ?_, ?_⟩
  · simp [submitCallback]
  · simp [submitCallback, EvalState.init]
  · intro P
    simp [submitRun, submitCallback, EvalState.init, resStep, Promise.resolve]

/-- C2, amended: for every status code `s` of a response that came without a transport
error, `doEval` treats it as a success exactly when `200 <= s <= 299`: it then registers its
listeners and, when the chunks of the body are followed by `end`, resolves with the text of
their concatenation; for every other `s` the promise is rejected, whatever the response
emits. -/
theorem doEval_success_iff (P : Platform) (s : Nat) :
    ((submitCallback EvalState.init none s).listening = true ↔ (200 ≤ s ∧ s ≤ 299)) ∧
    ((200 ≤ s ∧ s ≤ 299) → ∀ (chunks : List Buffer) (rest : List ResEvent),
      (submitRun P (.responded s (chunks.map ResEvent.data ++ ResEvent.streamEnd :: rest))).promise
        = .fulfilled (P.bufferToString chunks.flatten)) ∧
    (¬ (200 ≤ s ∧ s ≤ 299) → ∀ events : List ResEvent,
      (submitRun P (.responded s events)).promise
        = .rejected ("HTTP status code " ++ numberToString s)) := by
  refine ⟨?_, ?_, ?_⟩
  · by_cases h : 200 ≤ s ∧ s ≤ 299
    · simp [submitCallback_success s h, h]
    · have h' : s < 200 ∨ 299 < s := by omega
      simp [submitCallback_failure s h', h]
  · intro h chunks rest
    simp only [submitRun, submitCallback_success s h, List.foldl_append, List.foldl_cons]
    rw [resStep_foldl_data P chunks _ rfl rfl]
    have hstep : resStep P
        { promise := .pending, body := [] ++ chunks, listening := true, uncaught := none }
        ResEvent.streamEnd
        = { promise := .fulfilled (P.bufferToString chunks.flatten), body := chunks,
            listening := true, uncaught := none } := by
      simp [resStep, Promise.resolve]
    rw [hstep]
    generalize P.bufferToString chunks.flatten = text
    have key : ∀ (evs : List ResEvent) (st : EvalState), st.promise = .fulfilled text →
        (evs.foldl (resStep P) st).promise = .fulfilled text := by
      intro evs
      induction evs with
      | nil => intro st h; exact h
      | cons ev tl ih =>
          intro st h
          refine ih _ ?_
          unfold resStep
          cases ev <;> split_ifs <;> simp [h, Promise.resolve]
    exact key rest _ rfl
  · intro h events
    have h' : s < 200 ∨ 299 < s := by omega
    simp only [submitRun, submitCallback_failure s h']
    exact resStep_foldl_rejected P events _ _ rfl

/-- C6: for every status code `s` that `doEval` does not treat as a success, its promise is
rejected with the message `HTTP status code ` followed by the decimal rendering of `s`, and
the endpoint handler, the transcoding having succeeded, answers with status 500 and the
body `{error: "HTTP status code <s>"}`. -/
theorem remote_status_error (P : Platform) (K : Credentials) (A : Ambient)
    (engine : Buffer → List WavEvent) (remote : Request → SubmitOutcome)
    (audioBuffer outputBuffer : Buffer) (refText : JsVal) (requestParams : JsObj)
    (s : Nat) (events : List ResEvent)
    (hs : s < 200 ∨ 299 < s)
    (hconv : convertToWav engine audioBuffer = .fulfilled outputBuffer)
    (hremote : ∀ request : Request, remote request = .responded s events) :
    (doEval P K A remote userId "wav" "16000" requestParams outputBuffer).2.promise
        = .rejected ("HTTP status code " ++ numberToString s) ∧
    evaluateAndRespond P K A engine remote audioBuffer requestParams
        = some { status := 500
                 body := .inr [("error", .str ("HTTP status code " ++ numberToString s))] } ∧
    analyze P K A engine remote audioBuffer refText
        = some { status := 500
                 body := .inr [("error", .str ("HTTP status code " ++ numberToString s))] } := by
  have hrun : ∀ (params : JsObj),
      (doEval P K A remote userId "wav" "16000" params outputBuffer).2.promise
        = .rejected ("HTTP status code " ++ numberToString s) := by
    intro params
    simp only [doEval, hremote, submitRun, submitCallback_failure s hs]
    exact resStep_foldl_rejected P events _ _ rfl
  refine ⟨hrun _, ?_, ?_⟩
  · simp only [evaluateAndRespond, hconv, hrun]
  · simp only [analyze, evaluateAndRespond, hconv, hrun]

/-- C6 at status 503, with a transcoder that delivers one chunk and ends: the handler of
`/api/analyze` answers 500 with `{error: "HTTP status code 503"}`. -/
theorem remote_status_error_503 :
    (503 < 200 ∨ 299 < 503) ∧
    analyze
        { sha1Hex := fun content => content
          bufferToString := fun _ => ""
          jsonParse := fun _ => .ok .null }
        { appKey := "key", secretKey := "secret" }
        { nowConnect := 1700000000000, nowStart := 1700000000001, rand := fun _ => 0 }
        (fun _ => [.data [82, 73, 70, 70], .streamEnd])
        (fun _ => .responded 503 [])
        [1, 2, 3] (.str "hello")
      = some { status := 500, body := .inr [("error", .str "HTTP status code 503")] } :=
  ⟨by decide,
   (remote_status_error
      { sha1Hex := fun content => content
        bufferToString := fun _ => ""
        jsonParse := fun _ => .ok .null }
      { appKey := "key", secretKey := "secret" }
      { nowConnect := 1700000000000, nowStart := 1700000000001, rand := fun _ => 0 }
      (fun _ => [.data [82, 73, 70, 70], .streamEnd])
      (fun _ => .responded 503 [])
      [1, 2, 3] [82, 73, 70, 70] (.str "hello") [] 503 []
      (by decide) rfl (fun _ => rfl)).2.2⟩

/-- C7, what the code does: for every response with a status in `200..299` whose stream emits
an `error` after some chunks and before any `end`, the promise of `doEval` is still pending
however many events follow (no listener takes the error, so it is thrown). -/
theorem response_error_leaves_pending (P : Platform) (s : Nat) (chunks : List Buffer)
    (message : String) (rest : List ResEvent) (hs : 200 ≤ s ∧ s ≤ 299) :
    submitRun P (.responded s (chunks.map ResEvent.data ++ ResEvent.error message :: rest))
      = { promise := .pending, body := chunks, listening := true, uncaught := some message } := by
  simp only [submitRun, submitCallback_success s hs, List.foldl_append, List.foldl_cons]
  rw [resStep_foldl_data P chunks _ rfl rfl]
  have hstep : resStep P
      { promise := .pending, body := [] ++ chunks, listening := true, uncaught := none }
      (ResEvent.error message)
      = { promise := .pending, body := chunks, listening := true, uncaught := some message } := by
    simp [resStep]
  rw [hstep]
  exact resStep_foldl_uncaught P rest _ rfl

/-- C7 at status 200, one chunk, then the error `aborted`, then a late `end`: the promise
is pending, not rejected. -/
theorem response_error_leaves_pending_200 :
    (200 ≤ 200 ∧ 200 ≤ 299) ∧
    ∀ P : Platform,
      (submitRun P (.responded 200 [.data [123], .error "aborted", .streamEnd])).promise
        = Promise.pending :=
  ⟨by decide, fun P =>
    congrArg EvalState.promise
      (response_error_leaves_pending P 200 [[123]] "aborted" [.streamEnd] (by decide))⟩

/-- C8, what the code does when `end` arrives before the error: the output stream ends
without a chunk and the command then reports its error, as for an upload that cannot be
decoded; `convertToWav` has resolved with the empty buffer and does not reject, and the
handler goes on to the remote call and answers 200.  The same with a chunk delivered
first: it resolves with that chunk although an error was reported. -/
theorem convertToWav_resolves_despite_error :
    convertToWav (fun _ => [.streamEnd, .commandError "ffmpeg exited with code 1"]) [1, 2, 3]
      = .fulfilled [] ∧
    convertToWav (fun _ => [.data [82, 73], .streamEnd, .commandError "ffmpeg exited with code 1"])
        [1, 2, 3]
      = .fulfilled [82, 73] ∧
    convertToWav (fun _ => [.streamEnd, .streamError "write EPIPE"]) [1, 2, 3]
      = .fulfilled [] ∧
    analyze
        { sha1Hex := fun content => content
          bufferToString := fun _ => ""
          jsonParse := fun _ => .ok .null }
        { appKey := "key", secretKey := "secret" }
        { nowConnect := 1700000000000, nowStart := 1700000000001, rand := fun _ => 0 }
        (fun _ => [.streamEnd, .commandError "ffmpeg exited with code 1"])
        (fun _ => .responded 200 [.streamEnd])
        [1, 2, 3] (.str "hello")
      = some { status := 200, body := .inl .null } := by
  refine ⟨rfl, rfl, rfl, rfl⟩

/-- The promise of `convertToWav` over every sequence of events.  A sequence is a run of
`data` events followed by nothing, by a first `end`, or by a first error of the output
stream or of the engine; in the first case the promise stays pending, in the second it is
fulfilled with the concatenation, in arrival order, of the chunks delivered before that
`end`, in the last two it is rejected with that error. -/
theorem convertToWav_first_terminal_event (input : Buffer) (chunks : List Buffer)
    (rest : List WavEvent) (message : String) :
    convertToWav (fun _ => chunks.map WavEvent.data) input = .pending ∧
    convertToWav (fun _ => chunks.map WavEvent.data ++ WavEvent.streamEnd :: rest) input
      = .fulfilled chunks.flatten ∧
    convertToWav (fun _ => chunks.map WavEvent.data ++ WavEvent.streamError message :: rest) input
      = .rejected message ∧
    convertToWav (fun _ => chunks.map WavEvent.data ++ WavEvent.commandError message :: rest) input
      = .rejected message ∧
    ∀ events : List WavEvent, ∃ chunks' : List Buffer,
      events = chunks'.map WavEvent.data ∨
      ∃ rest' : List WavEvent,
        events = chunks'.map WavEvent.data ++ WavEvent.streamEnd :: rest' ∨
        ∃ message' : String,
          events = chunks'.map WavEvent.data ++ WavEvent.streamError message' :: rest' ∨
          events = chunks'.map WavEvent.data ++ WavEvent.commandError message' :: rest' := by
  refine ⟨?_, ?_, ?_, ?_, wavEvents_split⟩
  · simp [convertToWav, wavRun, wavStep_foldl_data, WavState.init]
  · simp only [convertToWav, wavRun, List.foldl_append, List.foldl_cons, wavStep_foldl_data]
    simp only [wavStep, WavState.init, Promise.resolve, List.nil_append]
    exact wavStep_foldl_fulfilled rest _ _
  · simp only [convertToWav, wavRun, List.foldl_append, List.foldl_cons, wavStep_foldl_data]
    simp only [wavStep, WavState.init, Promise.reject, List.nil_append]
    exact wavStep_foldl_rejected rest _ _
  · simp only [convertToWav, wavRun, List.foldl_append, List.foldl_cons, wavStep_foldl_data]
    simp only [wavStep, WavState.init, Promise.reject, List.nil_append]
    exact wavStep_foldl_rejected rest _ _

/-! ## The claims on the envelope -/

/-- The envelope that `doEval` submits is the one built by `doEvalParams`. -/
theorem doEval_text (P : Platform) (K : Credentials) (A : Ambient)
    (remote : Request → SubmitOutcome) (uid audioType sampleRate : String)
    (requestParams : JsObj) (audioBuffer : Buffer) :
    (doEval P K A remote uid audioType sampleRate requestParams audioBuffer).1.text
      = (doEvalParams P K A uid audioType sampleRate requestParams).1 := rfl

/-- C1: in the envelope that `doEval` submits, `connect.param.app.sig` is the SHA-1 hex
digest of `appKey ++ connect.param.app.timestamp ++ secretKey`, `start.param.app.sig` is
the digest of `appKey ++ start.param.app.timestamp ++ start.param.app.userId ++ secretKey`,
the two timestamps are the decimal renderings of the two clock readings, and
`start.param.app.userId` is the subject id passed in. -/
theorem doEval_signatures (P : Platform) (K : Credentials) (A : Ambient)
    (remote : Request → SubmitOutcome) (uid audioType sampleRate : String)
    (requestParams : JsObj) (audioBuffer : Buffer) :
    let env := (doEval P K A remote uid audioType sampleRate requestParams audioBuffer).1.text
    env.connect.param.app.sig
        = P.sha1Hex (K.appKey ++ env.connect.param.app.timestamp ++ K.secretKey) ∧
    env.start.param.app.sig
        = P.sha1Hex (K.appKey ++ env.start.param.app.timestamp ++ env.start.param.app.userId
            ++ K.secretKey) ∧
    env.connect.param.app.timestamp = numberToString A.nowConnect ∧
    env.start.param.app.timestamp = numberToString A.nowStart ∧
    env.start.param.app.userId = uid ∧
    env.connect.param.app.applicationId = K.appKey ∧
    env.start.param.app.applicationId = K.appKey := by
  intro env
  exact ⟨rfl, rfl, rfl, rfl, rfl, rfl, rfl⟩

/-! ### Object lemmas -/

theorem JsObj.find?_set_self (o : JsObj) (k : String) (v : JsVal) :
    (o.set k v).find? k = some v := by
  induction o with
  | nil => simp [JsObj.set, JsObj.find?]
  | cons kv rest ih =>
      obtain ⟨k', v'⟩ := kv
      by_cases h : k' = k
      · simp [JsObj.set, JsObj.find?, h]
      · simp [JsObj.set, JsObj.find?, h, ih]

theorem JsObj.find?_set_other (o : JsObj) (k k' : String) (v : JsVal) (h : k' ≠ k) :
    (o.set k v).find? k' = o.find? k' := by
  induction o with
  | nil => simp [JsObj.set, JsObj.find?, Ne.symm h]
  | cons kv rest ih =>
      obtain ⟨k₀, v₀⟩ := kv
      by_cases h₀ : k₀ = k
      · subst h₀
        simp [JsObj.set, JsObj.find?, Ne.symm h]
      · simp [JsObj.set, JsObj.find?, h₀, ih]

theorem JsObj.get_set_self (o : JsObj) (k : String) (v : JsVal) :
    (o.set k v).get k = v := by
  simp [JsObj.get, JsObj.find?_set_self]

theorem JsObj.get_set_other (o : JsObj) (k k' : String) (v : JsVal) (h : k' ≠ k) :
    (o.set k v).get k' = o.get k' := by
  simp [JsObj.get, JsObj.find?_set_other o k k' v h]

theorem JsObj.find?_isSome_iff (o : JsObj) (k : String) :
    (o.find? k).isSome = true ↔ k ∈ o.keys := by
  induction o with
  | nil => simp [JsObj.find?, JsObj.keys]
  | cons kv rest ih =>
      obtain ⟨k', v'⟩ := kv
      by_cases h : k' = k
      · simp [JsObj.find?, JsObj.keys, h]
      · have ih' : (JsObj.find? rest k).isSome = true ↔ k ∈ List.map Prod.fst rest := ih
        simp [JsObj.find?, JsObj.keys, h, ih', Ne.symm h]

theorem JsObj.keys_set (o : JsObj) (k : String) (v : JsVal) :
    (o.set k v).keys = if k ∈ o.keys then o.keys else o.keys ++ [k] := by
  induction o with
  | nil => simp [JsObj.set, JsObj.keys]
  | cons kv rest ih =>
      obtain ⟨k', v'⟩ := kv
      by_cases h : k' = k
      · simp [JsObj.set, JsObj.keys, h]
      · have ih' : List.map Prod.fst (JsObj.set rest k v)
            = if k ∈ List.map Prod.fst rest then List.map Prod.fst rest
              else List.map Prod.fst rest ++ [k] := ih
        by_cases hm : k ∈ List.map Prod.fst rest
        · simp [JsObj.set, JsObj.keys, h, ih', hm]
        · simp [JsObj.set, JsObj.keys, h, ih', hm, Ne.symm h]

/-- Writing back the value that a property already has leaves the object as it is. -/
theorem JsObj.set_of_find? (o : JsObj) (k : String) (v : JsVal) (h : o.find? k = some v) :
    o.set k v = o := by
  induction o with
  | nil => simp [JsObj.find?] at h
  | cons kv rest ih =>
      obtain ⟨k', v'⟩ := kv
      by_cases hk : k' = k
      · simp [JsObj.find?, hk] at h
        simp [JsObj.set, hk, h]
      · simp [JsObj.find?, hk] at h
        simp [JsObj.set, hk, ih h]

/-! ### The token generator -/

/-- On a result of `Math.random`, which lies in `[0, 1)`, `Math.random() * 16 | 0` is one of
`0, ..., 15`. -/
theorem toInt32_random (q : ℚ) (h0 : 0 ≤ q) (h1 : q < 1) :
    ∃ n : Nat, n < 16 ∧ toInt32 (q * 16) = (n : Int) := by
  have hq0 : (0 : ℚ) ≤ q * 16 := by positivity
  have hq1 : q * 16 < ((16 : Int) : ℚ) := by push_cast; linarith
  have hf0 : 0 ≤ ⌊q * 16⌋ := Int.floor_nonneg.mpr hq0
  have hf1 : ⌊q * 16⌋ < 16 := Int.floor_lt.mpr hq1
  refine ⟨⌊q * 16⌋.toNat, by omega, ?_⟩
  simp only [toInt32, hq0, if_true]
  omega

/-- For an `x` the replacer returns one character, a hexadecimal digit. -/
theorem uuidReplacer_x (q : ℚ) (h0 : 0 ≤ q) (h1 : q < 1) :
    ∃ d : Char, (uuidReplacer 'x' q).data = [d] ∧ d.toUpper ∈ hexUpper := by
  obtain ⟨n, hn, hr⟩ := toInt32_random q h0 h1
  unfold uuidReplacer
  rw [hr]
  interval_cases n <;> exact ⟨_, rfl, by decide⟩

/-- For the `y` the replacer returns one character, one of `8`, `9`, `a`, `b`. -/
theorem uuidReplacer_y (q : ℚ) (h0 : 0 ≤ q) (h1 : q < 1) :
    ∃ d : Char, (uuidReplacer 'y' q).data = [d] ∧ d.toUpper ∈ variantUpper := by
  obtain ⟨n, hn, hr⟩ := toInt32_random q h0 h1
  unfold uuidReplacer
  rw [hr]
  interval_cases n <;> exact ⟨_, rfl, by decide⟩

/-- The replacement keeps the length of the template and puts at each place a character
that `tokenChar` allows; it calls `Math.random` once for each `x` and `y`. -/
theorem replaceXY_forall₂ (rand : Nat → ℚ) (h : ∀ j, 0 ≤ rand j ∧ rand j < 1)
    (template : List Char) :
    ∀ i : Nat,
      List.Forall₂ tokenChar template ((replaceXY rand template i).1.map Char.toUpper) ∧
      (replaceXY rand template i).2
        = i + (template.filter (fun c => decide (c = 'x' ∨ c = 'y'))).length := by
  induction template with
  | nil => intro i; simp [replaceXY]
  | cons c cs ih =>
      intro i
      by_cases hx : c = 'x'
      · obtain ⟨d, hd, hmem⟩ := uuidReplacer_x (rand i) (h i).1 (h i).2
        subst hx
        obtain ⟨ih1, ih2⟩ := ih (i + 1)
        refine ⟨?_, ?_⟩
        · simp only [replaceXY, true_or, if_true, hd, List.singleton_append, List.map_cons]
          exact List.Forall₂.cons ⟨fun _ => hmem, fun hc => absurd hc (by decide),
            fun hc => absurd rfl hc⟩ ih1
        · simp only [replaceXY, true_or, if_true, ih2, List.filter_cons, decide_True,
            List.length_cons]
          omega
      · by_cases hy : c = 'y'
        · obtain ⟨d, hd, hmem⟩ := uuidReplacer_y (rand i) (h i).1 (h i).2
          subst hy
          obtain ⟨ih1, ih2⟩ := ih (i + 1)
          refine ⟨?_, ?_⟩
          · simp only [replaceXY, or_true, if_true, hd, List.singleton_append, List.map_cons]
            exact List.Forall₂.cons ⟨fun hc => absurd hc (by decide), fun _ => hmem,
              fun _ hc => absurd rfl hc⟩ ih1
          · simp only [replaceXY, or_true, if_true, ih2, List.filter_cons, decide_True,
              List.length_cons]
            omega
        · obtain ⟨ih1, ih2⟩ := ih i
          have hxy : ¬ (c = 'x' ∨ c = 'y') := by simp [hx, hy]
          refine ⟨?_, ?_⟩
          · simp only [replaceXY, hxy, if_false, List.map_cons]
            exact List.Forall₂.cons ⟨fun hc => absurd hc hx, fun hc => absurd hc hy,
              fun _ _ => rfl⟩ ih1
          · simp only [replaceXY, hxy, if_false, ih2, List.filter_cons, decide_False]
            simp

/-- What holds of every pair of related elements holds of every element of the second
list. -/
theorem forall₂_right_of_left {α β : Type} {R : α → β → Prop} {Q : β → Prop}
    {l : List α} {u : List β} (h : List.Forall₂ R l u)
    (hQ : ∀ c ∈ l, ∀ d, R c d → Q d) : ∀ d ∈ u, Q d := by
  induction h with
  | nil => intro d hd; simp at hd
  | cons hab _ ih =>
      intro d hd
      rcases List.mem_cons.mp hd with rfl | hd
      · exact hQ _ (List.mem_cons_self _ _) _ hab
      · exact ih (fun c hc => hQ c (List.mem_cons_of_mem _ hc)) d hd

/-- The token of `createUUID`, character by character against the template. -/
theorem createUUID_forall₂ (rand : Nat → ℚ) (h : ∀ j, 0 ≤ rand j ∧ rand j < 1) (i : Nat) :
    List.Forall₂ tokenChar uuidTemplate.data (createUUID rand i).1.data ∧
    (createUUID rand i).2 = i + 31 := by
  obtain ⟨h1, h2⟩ := replaceXY_forall₂ rand h uuidTemplate.data i
  exact ⟨h1, by rw [createUUID, h2]; rfl⟩

/-- A token made of results of `Math.random` has 32 characters. -/
theorem createUUID_length (rand : Nat → ℚ) (h : ∀ j, 0 ≤ rand j ∧ rand j < 1) (i : Nat) :
    (createUUID rand i).1.data.length = 32 := by
  have hlen := (createUUID_forall₂ rand h i).1.length_eq
  rw [← hlen]
  rfl

/-- C4: for every sequence of results of `Math.random` in `[0, 1)`, `createUUID` returns a
string of exactly 32 characters, each one of `0-9`, `A-F`, whose character at index 12 is
`4` and whose character at index 16 is one of `8`, `9`, `A`, `B`; it has then called
`Math.random` 31 times. -/
theorem createUUID_shape (rand : Nat → ℚ) (i : Nat)
    (h : ∀ j, 0 ≤ rand j ∧ rand j < 1) :
    (createUUID rand i).1.length = 32 ∧
    (∀ c ∈ (createUUID rand i).1.data, c ∈ "0123456789ABCDEF".data) ∧
    (createUUID rand i).1.data[12]? = some '4' ∧
    (∃ c ∈ ['8', '9', 'A', 'B'], (createUUID rand i).1.data[16]? = some c) ∧
    (createUUID rand i).2 = i + 31 := by
  obtain ⟨hF, hcalls⟩ := createUUID_forall₂ rand h i
  have hlen : (createUUID rand i).1.data.length = 32 := createUUID_length rand h i
  have htl : uuidTemplate.data.length = 32 := rfl
  refine ⟨hlen, ?_, ?_, ?_, hcalls⟩
  · refine forall₂_right_of_left hF ?_
    have hT : ∀ c ∈ uuidTemplate.data, c = 'x' ∨ c = 'y' ∨ c = '4' := by decide
    intro c hc d hcd
    have hd : d ∈ hexUpper := by
      rcases hT c hc with rfl | rfl | rfl
      · exact hcd.1 rfl
      · have hv := hcd.2.1 rfl
        revert hv
        generalize d = e
        simp only [variantUpper, hexUpper, List.mem_cons, List.mem_singleton]
        rintro (rfl | rfl | rfl | rfl | hf) <;> simp at *
      · have := hcd.2.2 (by decide) (by decide)
        rw [this]
        decide
    exact hd
  · have h12 : 12 < (createUUID rand i).1.data.length := by omega
    have hrel := hF.get (by rw [htl]; decide : 12 < uuidTemplate.data.length) h12
    have ht : uuidTemplate.data.get ⟨12, by rw [htl]; decide⟩ = '4' := rfl
    rw [ht] at hrel
    have hd := hrel.2.2 (by decide) (by decide)
    simp only [List.get_eq_getElem] at hd
    rw [List.getElem?_eq_getElem h12, hd]
    rfl
  · have h16 : 16 < (createUUID rand i).1.data.length := by omega
    have hrel := hF.get (by rw [htl]; decide : 16 < uuidTemplate.data.length) h16
    have hd := hrel.2.1 rfl
    exact ⟨_, hd, by rw [List.getElem?_eq_getElem h16]; rfl⟩

/-- C4 with every result of `Math.random` equal to `1/2`, which lies in `[0, 1)`. -/
theorem createUUID_shape_half :
    (∀ j : Nat, (0 : ℚ) ≤ (fun _ => 1 / 2) j ∧ (fun _ => (1 / 2 : ℚ)) j < 1) ∧
    (createUUID (fun _ => 1 / 2) 0).1.length = 32 ∧
    (createUUID (fun _ => 1 / 2) 0).1.data[12]? = some '4' :=
  have hr : ∀ j : Nat, (0 : ℚ) ≤ (fun _ => 1 / 2) j ∧ (fun _ => (1 / 2 : ℚ)) j < 1 :=
    fun _ => ⟨by norm_num, by norm_num⟩
  ⟨hr, (createUUID_shape (fun _ => 1 / 2) 0 hr).1, (createUUID_shape (fun _ => 1 / 2) 0 hr).2.2.1⟩

/-! ### The `tokenId` assignment -/

/-- The mapping at `start.param.request` is the one left by the `tokenId` assignment. -/
theorem doEval_request (P : Platform) (K : Credentials) (A : Ambient)
    (remote : Request → SubmitOutcome) (uid audioType sampleRate : String)
    (requestParams : JsObj) (audioBuffer : Buffer) :
    (doEval P K A remote uid audioType sampleRate requestParams
        audioBuffer).1.text.start.param.request
      = (assignTokenId A.rand requestParams).1 := rfl

/-- With every result of `Math.random` equal to `0`, an `x` becomes `0`. -/
theorem uuidReplacer_x_zero : uuidReplacer 'x' 0 = "0" := by
  have h : toInt32 (0 * 16) = 0 := by simp [toInt32]
  unfold uuidReplacer
  rw [h]
  rfl

/-- With every result of `Math.random` equal to `0`, the `y` becomes `8`. -/
theorem uuidReplacer_y_zero : uuidReplacer 'y' 0 = "8" := by
  have h : toInt32 (0 * 16) = 0 := by simp [toInt32]
  unfold uuidReplacer
  rw [h]
  rfl

/-- The token made when every result of `Math.random` is `0`. -/
theorem createUUID_zero :
    createUUID (fun _ => 0) 0 = ("00000000000040008000000000000000", 31) := by
  simp [createUUID, uuidTemplate, replaceXY, uuidReplacer_x_zero, uuidReplacer_y_zero]
  decide

/-- C3, as stated, fails at each of the values it names: a `tokenId` that is the empty
string, `0`, `false` or `null` is not kept; with every result of `Math.random` equal to `0`
the request carries the generated token `00000000000040008000000000000000`, and
`Math.random` was called 31 times. -/
theorem falsy_tokenId_replaced :
    assignTokenId (fun _ => 0) [("coreType", .str "sent.eval.promax"), ("tokenId", .str "")]
      = ([("coreType", .str "sent.eval.promax"),
          ("tokenId", .str "00000000000040008000000000000000")], 31) ∧
    (assignTokenId (fun _ => 0) [("tokenId", .num 0)]).1.get "tokenId"
      = .str "00000000000040008000000000000000" ∧
    (assignTokenId (fun _ => 0) [("tokenId", .bool false)]).1.get "tokenId"
      = .str "00000000000040008000000000000000" ∧
    (assignTokenId (fun _ => 0) [("tokenId", .null)]).1.get "tokenId"
      = .str "00000000000040008000000000000000" := by
  refine ⟨?_, ?_, ?_, ?_⟩ <;>
    simp [assignTokenId, JsObj.get, JsObj.find?, JsObj.set, JsVal.truthy, createUUID_zero]

/-- C3, amended: for every scoring-parameter mapping that already contains a `tokenId`
field whose value `v` is truthy, the envelope built by `doEval` has
`start.param.request.tokenId` equal to exactly `v`, the mapping is the one passed in, and
`Math.random` is not called, so no token is generated; when `v` is falsy the field carries
the token that `createUUID` returns. -/
theorem truthy_tokenId_preserved (P : Platform) (K : Credentials) (A : Ambient)
    (remote : Request → SubmitOutcome) (uid audioType sampleRate : String)
    (requestParams : JsObj) (audioBuffer : Buffer) (v : JsVal)
    (hv : requestParams.find? "tokenId" = some v) :
    (v.truthy = true →
      (doEval P K A remote uid audioType sampleRate requestParams
          audioBuffer).1.text.start.param.request.get "tokenId" = v ∧
      (doEval P K A remote uid audioType sampleRate requestParams
          audioBuffer).1.text.start.param.request = requestParams ∧
      (doEvalParams P K A uid audioType sampleRate requestParams).2 = 0) ∧
    (v.truthy = false →
      (doEval P K A remote uid audioType sampleRate requestParams
          audioBuffer).1.text.start.param.request.get "tokenId"
        = .str (createUUID A.rand 0).1 ∧
      (doEvalParams P K A uid audioType sampleRate requestParams).2
        = (createUUID A.rand 0).2) := by
  have hget : requestParams.get "tokenId" = v := by simp [JsObj.get, hv]
  constructor
  · intro ht
    have hs : JsObj.set requestParams "tokenId" v = requestParams :=
      JsObj.set_of_find? requestParams "tokenId" v hv
    have ha : assignTokenId A.rand requestParams = (requestParams, 0) := by
      simp [assignTokenId, hget, ht, hs]
    rw [doEval_request]
    refine ⟨?_, ?_, ?_⟩
    · rw [ha]; exact hget
    · rw [ha]
    · show (assignTokenId A.rand requestParams).2 = 0
      rw [ha]
  · intro hf
    have ha : assignTokenId A.rand requestParams
        = (JsObj.set requestParams "tokenId" (.str (createUUID A.rand 0).1),
           (createUUID A.rand 0).2) := by
      simp [assignTokenId, hget, hf]
    rw [doEval_request]
    refine ⟨?_, ?_⟩
    · rw [ha]; exact JsObj.get_set_self _ _ _
    · show (assignTokenId A.rand requestParams).2 = (createUUID A.rand 0).2
      rw [ha]

/-- C3, amended, at a mapping whose `tokenId` is the string `tok-1`: it is kept. -/
theorem truthy_tokenId_preserved_tok1 :
    JsObj.find? [("coreType", .str "sent.eval.promax"), ("tokenId", .str "tok-1")] "tokenId"
      = some (.str "tok-1") ∧
    (JsVal.str "tok-1").truthy = true ∧
    (doEval
        { sha1Hex := fun content => content
          bufferToString := fun _ => ""
          jsonParse := fun _ => .ok .null }
        { appKey := "key", secretKey := "secret" }
        { nowConnect := 1700000000000, nowStart := 1700000000001, rand := fun _ => 0 }
        (fun _ => .silent) "uid" "wav" "16000"
        [("coreType", .str "sent.eval.promax"), ("tokenId", .str "tok-1")]
        []).1.text.start.param.request.get "tokenId" = .str "tok-1" :=
  ⟨by decide, by decide,
   ((truthy_tokenId_preserved
      { sha1Hex := fun content => content
        bufferToString := fun _ => ""
        jsonParse := fun _ => .ok .null }
      { appKey := "key", secretKey := "secret" }
      { nowConnect := 1700000000000, nowStart := 1700000000001, rand := fun _ => 0 }
      (fun _ => .silent) "uid" "wav" "16000"
      [("coreType", .str "sent.eval.promax"), ("tokenId", .str "tok-1")]
      [] (.str "tok-1") (by decide)).1 (by decide)).1⟩

/-- C5: for every scoring-parameter mapping `p` passed to `doEval`, the mapping at
`start.param.request` has exactly the keys of `p` plus `tokenId` (in the order of `p`, a
new `tokenId` last), and every key other than `tokenId` has the value it has in `p`. -/
theorem request_frame (P : Platform) (K : Credentials) (A : Ambient)
    (remote : Request → SubmitOutcome) (uid audioType sampleRate : String)
    (p : JsObj) (audioBuffer : Buffer) :
    let request :=
      (doEval P K A remote uid audioType sampleRate p audioBuffer).1.text.start.param.request
    (∀ k : String, k ∈ JsObj.keys request ↔ (k ∈ JsObj.keys p ∨ k = "tokenId")) ∧
    (JsObj.keys request
      = if "tokenId" ∈ JsObj.keys p then JsObj.keys p else JsObj.keys p ++ ["tokenId"]) ∧
    (∀ k : String, k ≠ "tokenId" → JsObj.find? request k = JsObj.find? p k) ∧
    (∀ k : String, k ≠ "tokenId" → JsObj.get request k = JsObj.get p k) := by
  intro request
  have hreq : ∃ v : JsVal, request = JsObj.set p "tokenId" v := by
    show ∃ v : JsVal, (assignTokenId A.rand p).1 = JsObj.set p "tokenId" v
    unfold assignTokenId
    by_cases ht : (JsObj.get p "tokenId").truthy = true
    · exact ⟨JsObj.get p "tokenId", by simp [ht]⟩
    · exact ⟨.str (createUUID A.rand 0).1, by simp [ht]⟩
  obtain ⟨v, hv⟩ := hreq
  rw [hv]
  have hkeys := JsObj.keys_set p "tokenId" v
  refine ⟨?_, hkeys, ?_, ?_⟩
  · intro k
    rw [hkeys]
    by_cases hm : "tokenId" ∈ JsObj.keys p
    · simp only [hm, if_true]
      constructor
      · exact Or.inl
      · rintro (h | rfl)
        · exact h
        · exact hm
    · simp [hm]
  · intro k hk
    exact JsObj.find?_set_other p "tokenId" k v hk
  · intro k hk
    exact JsObj.get_set_other p "tokenId" k v hk

/-! ### The strings that are hashed -/

/-- The digits are put in front of what is already there. -/
theorem toDigitsCore_suffix (b : Nat) :
    ∀ (fuel n : Nat) (ds : List Char), ∃ front, Nat.toDigitsCore b fuel n ds = front ++ ds := by
  intro fuel
  induction fuel with
  | zero => intro n ds; exact ⟨[], rfl⟩
  | succ fuel ih =>
      intro n ds
      simp only [Nat.toDigitsCore]
      split_ifs with h
      · exact ⟨[Nat.digitChar (n % b)], rfl⟩
      · obtain ⟨front, hfront⟩ := ih (n / b) (Nat.digitChar (n % b) :: ds)
        exact ⟨front ++ [Nat.digitChar (n % b)], by simp [hfront]⟩

/-- The decimal rendering of a natural number ends with the digit of its units. -/
theorem toDigits_last (n : Nat) :
    ∃ front, Nat.toDigits 10 n = front ++ [Nat.digitChar (n % 10)] := by
  simp only [Nat.toDigits, Nat.toDigitsCore]
  split_ifs with h
  · exact ⟨[], rfl⟩
  · exact toDigitsCore_suffix 10 n (n / 10) [Nat.digitChar (n % 10)]

/-- A decimal digit is not the letter `d`. -/
theorem digitChar_ne_d (n : Nat) : Nat.digitChar (n % 10) ≠ 'd' := by
  have h : n % 10 < 10 := Nat.mod_lt _ (by decide)
  generalize n % 10 = k at h
  interval_cases k <;> decide

/-- The rendering of a time value ends with a character that is not the letter `d`. -/
theorem numberToString_last (i : Int) :
    ∃ front c, (numberToString i).data = front ++ [c] ∧ c ≠ 'd' := by
  unfold numberToString natToString
  split_ifs with h
  · obtain ⟨front, hfront⟩ := toDigits_last i.natAbs
    exact ⟨'-' :: front, Nat.digitChar (i.natAbs % 10),
      by simp [String.data_append, hfront], digitChar_ne_d _⟩
  · obtain ⟨front, hfront⟩ := toDigits_last i.toNat
    exact ⟨front, Nat.digitChar (i.toNat % 10), by simp [hfront], digitChar_ne_d _⟩

/-- The string hashed for the connect signature is never the string hashed for the start
signature of the subject `uid`, whatever the keys and the two time values. -/
theorem connect_material_ne_start_material (appKey secretKey : String) (t₁ t₂ : Int) :
    appKey ++ numberToString t₁ ++ secretKey
      ≠ appKey ++ numberToString t₂ ++ userId ++ secretKey := by
  intro heq
  have hdata := congrArg String.data heq
  simp only [String.data_append, List.append_assoc] at hdata
  have h1 := List.append_cancel_left hdata
  rw [← List.append_assoc] at h1
  have h2 := List.append_cancel_right h1
  obtain ⟨front, c, hc, hne⟩ := numberToString_last t₁
  rw [hc] at h2
  have h3 : front ++ [c] = ((numberToString t₂).data ++ ['u', 'i']) ++ ['d'] := by
    rw [h2]
    simp [userId]
  have h4 := (List.append_inj' h3 rfl).2
  simp at h4
  exact hne h4

/-- C9: for every application key, secret key and pair of time values (equal or not), with
the subject id `uid` of the endpoints, the string hashed for the connect signature differs
from the string hashed for the start signature; so the two signatures of one envelope are
equal only if the digest collides on these two different strings, and are distinct whenever
it does not. -/
theorem connect_start_signatures (P : Platform) (K : Credentials) (A : Ambient)
    (remote : Request → SubmitOutcome) (audioType sampleRate : String)
    (requestParams : JsObj) (audioBuffer : Buffer) :
    let env :=
      (doEval P K A remote userId audioType sampleRate requestParams audioBuffer).1.text
    let connectMaterial := K.appKey ++ numberToString A.nowConnect ++ K.secretKey
    let startMaterial := K.appKey ++ numberToString A.nowStart ++ userId ++ K.secretKey
    connectMaterial ≠ startMaterial ∧
    env.connect.param.app.sig = P.sha1Hex connectMaterial ∧
    env.start.param.app.sig = P.sha1Hex startMaterial ∧
    ((P.sha1Hex connectMaterial = P.sha1Hex startMaterial → connectMaterial = startMaterial) →
      env.connect.param.app.sig ≠ env.start.param.app.sig) := by
  intro env connectMaterial startMaterial
  have hne : connectMaterial ≠ startMaterial :=
    connect_material_ne_start_material K.appKey K.secretKey A.nowConnect A.nowStart
  refine ⟨hne, rfl, rfl, ?_⟩
  intro hinj hsig
  exact hne (hinj hsig)

/-! ### Different time values give different hashed strings -/

/-- A decimal digit character spells its digit. -/
theorem digitChar_toNat (n : Nat) : (Nat.digitChar (n % 10)).toNat - 48 = n % 10 := by
  have h : n % 10 < 10 := Nat.mod_lt _ (by decide)
  generalize n % 10 = k at h
  interval_cases k <;> rfl

/-- With enough fuel, the digits produced for `n` in front of `ds` spell `n` followed by
`ds`. -/
theorem digitsValue_toDigitsCore :
    ∀ (fuel n : Nat) (ds : List Char), n < fuel →
      digitsValue 0 (Nat.toDigitsCore 10 fuel n ds) = digitsValue n ds := by
  intro fuel
  induction fuel with
  | zero => intro n ds h; omega
  | succ fuel ih =>
      intro n ds h
      simp only [Nat.toDigitsCore]
      split_ifs with h0
      · simp only [digitsValue, List.foldl_cons, digitChar_toNat]
        congr 1
        omega
      · have hlt : n / 10 < fuel := by omega
        rw [ih (n / 10) _ hlt]
        simp only [digitsValue, List.foldl_cons, digitChar_toNat]
        congr 1
        omega

/-- The decimal rendering of a natural number spells that number. -/
theorem digitsValue_toDigits (n : Nat) : digitsValue 0 (Nat.toDigits 10 n) = n := by
  rw [Nat.toDigits, digitsValue_toDigitsCore (n + 1) n [] (by omega)]
  rfl

/-- Every character of a decimal rendering is a decimal digit, so none is a minus sign. -/
theorem toDigitsCore_ne_minus :
    ∀ (fuel n : Nat) (ds : List Char), (∀ c ∈ ds, c ≠ '-') →
      ∀ c ∈ Nat.toDigitsCore 10 fuel n ds, c ≠ '-' := by
  intro fuel
  induction fuel with
  | zero => intro n ds h; exact h
  | succ fuel ih =>
      intro n ds h
      have hd : Nat.digitChar (n % 10) ≠ '-' := by
        have hlt : n % 10 < 10 := Nat.mod_lt _ (by decide)
        generalize n % 10 = k at hlt
        interval_cases k <;> decide
      have hds : ∀ c ∈ Nat.digitChar (n % 10) :: ds, c ≠ '-' := by
        intro c hc
        rcases List.mem_cons.mp hc with rfl | hc
        · exact hd
        · exact h c hc
      simp only [Nat.toDigitsCore]
      split_ifs with h0
      · exact hds
      · exact ih (n / 10) _ hds

/-- The rendering of a time value determines the time value. -/
theorem numberToString_injective (a b : Int) (h : numberToString a = numberToString b) :
    a = b := by
  have hminus : ∀ n : Nat, ∀ c ∈ Nat.toDigits 10 n, c ≠ '-' := fun n =>
    toDigitsCore_ne_minus (n + 1) n [] (by simp)
  have hdata := congrArg String.data h
  unfold numberToString natToString at hdata
  split_ifs at hdata with ha hb hb
  · have hd : Nat.toDigits 10 a.natAbs = Nat.toDigits 10 b.natAbs := by
      simpa [String.data_append] using hdata
    have hv := congrArg (digitsValue 0) hd
    rw [digitsValue_toDigits, digitsValue_toDigits] at hv
    omega
  · have hmem : '-' ∈ Nat.toDigits 10 b.toNat := by
      have : ('-' :: Nat.toDigits 10 a.natAbs) = Nat.toDigits 10 b.toNat := by
        simpa [String.data_append] using hdata
      rw [← this]
      exact List.mem_cons_self _ _
    exact absurd rfl (hminus _ _ hmem)
  · have hmem : '-' ∈ Nat.toDigits 10 a.toNat := by
      have : Nat.toDigits 10 a.toNat = ('-' :: Nat.toDigits 10 b.natAbs) := by
        simpa [String.data_append] using hdata
      rw [this]
      exact List.mem_cons_self _ _
    exact absurd rfl (hminus _ _ hmem)
  · have hd : Nat.toDigits 10 a.toNat = Nat.toDigits 10 b.toNat := by
      simpa using hdata
    have hv := congrArg (digitsValue 0) hd
    rw [digitsValue_toDigits, digitsValue_toDigits] at hv
    omega

/-- What is hashed is sensitive to the time value: with the same keys and subject id,
different time values give different strings to `getConnectSig` and to `getStartSig`.
Whether their digests differ rests on the digest alone. -/
theorem material_differs_in_time (appKey secretKey uid : String) (t₁ t₂ : Int)
    (h : t₁ ≠ t₂) :
    appKey ++ numberToString t₁ ++ secretKey ≠ appKey ++ numberToString t₂ ++ secretKey ∧
    appKey ++ numberToString t₁ ++ uid ++ secretKey
      ≠ appKey ++ numberToString t₂ ++ uid ++ secretKey := by
  constructor
  · intro heq
    have hdata := congrArg String.data heq
    simp only [String.data_append, List.append_assoc] at hdata
    have h1 := List.append_cancel_right (List.append_cancel_left hdata)
    exact h (numberToString_injective t₁ t₂ (String.ext h1))
  · intro heq
    have hdata := congrArg String.data heq
    simp only [String.data_append, List.append_assoc] at hdata
    have h1 := List.append_cancel_left hdata
    rw [← List.append_assoc, ← List.append_assoc] at h1
    have h2 := List.append_cancel_right h1
    have h3 := List.append_cancel_right h2
    exact h (numberToString_injective t₁ t₂ (String.ext h3))

end Fluentorr
